import Mathlib

/-!
Verification of the go-imap client library core against its specification.

The Go sources are shallowly embedded: pure functions become Lean functions
over `String` / `List Nat` (byte) values, stateful connection code becomes an
explicit fuelled interpreter over a `Session` record, and fallible code
returns `Except String`.  Go `int` values are modelled as `Int` (or `Nat`
where the source value is provably non-negative); Go byte strings indexed by
byte are modelled as `List Nat` with every element below 256.
-/

namespace GoImap

/-! ### Byte and string helpers mirroring Go primitives -/

/-- Go `unicode.IsDigit(rune(b))` for a single byte `b`: only the ASCII
digits are in category Nd among U+0000..U+00FF. -/
def isDigitByte (b : Nat) : Bool := 48 ≤ b && b ≤ 57

/-- Go `unicode.IsLetter(rune(b))` for a single byte `b`: ASCII letters plus
the Latin-1 letters U+00AA, U+00B5, U+00BA, U+00C0–U+00D6, U+00D8–U+00F6,
U+00F8–U+00FF. -/
def isLetterByte (b : Nat) : Bool :=
  (65 ≤ b && b ≤ 90) || (97 ≤ b && b ≤ 122) ||
  b == 0xAA || b == 0xB5 || b == 0xBA ||
  (0xC0 ≤ b && b ≤ 0xD6) || (0xD8 ≤ b && b ≤ 0xF6) || (0xF8 ≤ b && b ≤ 0xFF)

/-- `IsLiteral` from parse.go: digits, letters, backslash, dot and square
brackets are acceptable literal characters. -/
def IsLiteral (b : Nat) : Bool :=
  isDigitByte b || isLetterByte b || b == 92 || b == 46 || b == 91 || b == 93

/-- Byte view of an ASCII string, used to feed the byte-level tokenizer with
the same bytes Go sees (all concrete inputs in this file are ASCII). -/
def bytesOfAscii (s : String) : List Nat := s.data.map Char.toNat

/-- Decimal value of a list of ASCII digit bytes. -/
def digitsVal (bs : List Nat) : Nat := bs.foldl (fun n b => n * 10 + (b - 48)) 0

/-- Go `strconv.Atoi` on a byte slice that the tokenizer extracted for a
literal size: the whole slice must be non-empty and all digits.  (The Go
call sites in parse.go only ever pass runs of digits, so the sign handling
of `Atoi` is unreachable there.) -/
def atoiBytes? (bs : List Nat) : Option Nat :=
  if bs.isEmpty then none
  else if bs.all isDigitByte then some (digitsVal bs) else none

/-- Go `strconv.Atoi` on a string: optional sign followed by a non-empty
run of digits covering the whole string.  Overflow of 64-bit ints is not
modelled; every value appearing in the claims is tiny. -/
def atoiInt? (s : String) : Option Int :=
  let core : List Char → Option Nat := fun ds =>
    if ds.isEmpty then none
    else if ds.all Char.isDigit then
      some (ds.foldl (fun n c => n * 10 + (c.toNat - 48)) 0)
    else none
  match s.data with
  | '-' :: rest => (core rest).map (fun n => -(n : Int))
  | '+' :: rest => (core rest).map (fun n => (n : Int))
  | cs => (core cs).map (fun n => (n : Int))

/-- Go `unicode.IsSpace` restricted to the characters that can occur in the
responses handled here (ASCII whitespace plus U+0085 and U+00A0). -/
def isGoSpace (c : Char) : Bool :=
  c == ' ' || c == '\t' || c == '\n' || c == '\x0b' || c == '\x0c' ||
  c == '\r' || c.toNat == 0x85 || c.toNat == 0xA0

/-- Worker for `goFields`: accumulates the current field in reverse. -/
def fieldsAux : List Char → List Char → List String
  | [], acc => if acc.isEmpty then [] else [String.mk acc.reverse]
  | c :: rest, acc =>
    if isGoSpace c then
      if acc.isEmpty then fieldsAux rest []
      else String.mk acc.reverse :: fieldsAux rest []
    else fieldsAux rest (c :: acc)

/-- Go `strings.Fields`: split around runs of whitespace, dropping empties. -/
def goFields (s : String) : List String := fieldsAux s.data []

/-- First index at which `needle` occurs in `hay`, mirroring Go
`strings.Index` (on character lists; all inputs here are ASCII). -/
def findSubstrIdx : List Char → List Char → Option Nat
  | _, [] => some 0
  | [], _ :: _ => none
  | c :: rest, needle =>
    if needle.isPrefixOf (c :: rest) then some 0
    else (findSubstrIdx rest needle).map (· + 1)

/-! ### parse.go: `parseUIDSearchResponse` -/

/-- Maps `strconv.Atoi` over the UID fields, propagating the first failure,
exactly as the loop in `parseUIDSearchResponse` does. -/
def atoiFields : List String → Except String (List Int)
  | [] => .ok []
  | f :: rest =>
    match atoiInt? f with
    | none => .error ("strconv.Atoi: parsing " ++ f)
    | some u =>
      match atoiFields rest with
      | .error e => .error e
      | .ok us => .ok (u :: us)

/-- `parseUIDSearchResponse` from parse.go: truncate the response at the
first CRLF, split the remaining line into fields, and require it to read
`* SEARCH n1 n2 …`. -/
def parseUIDSearchResponse (r : String) : Except String (List Int) :=
  let r :=
    match findSubstrIdx r.data ("\r\n".data) with
    | some idx => String.mk (r.data.take idx)
    | none => r
  match goFields r with
  | f0 :: f1 :: rest =>
    if f0 == "*" && f1 == "SEARCH" then atoiFields rest
    else .error ("invalid response: " ++ r)
  | _ => .error ("invalid response: " ++ r)

/-! ### util.go: `MakeIMAPLiteral` -/

/-- `MakeIMAPLiteral` from util.go: `fmt.Sprintf("{%d}\r\n%s", len([]byte(s)), s)`;
`len([]byte(s))` is the number of UTF-8 bytes of `s`, which is
`String.utf8ByteSize`. -/
def MakeIMAPLiteral (s : String) : String :=
  "\x7b" ++ Nat.repr s.utf8ByteSize ++ "\x7d\r\n" ++ s

/-- The specification's wording for the literal helper: `"{" + bytelen(s) +
"}\r\n" + s` where `bytelen` sums the UTF-8 encoding sizes of the
codepoints.  Stated separately so the source definition can be compared
against it. -/
def makeLiteralSpec (s : String) : String :=
  "\x7b" ++ Nat.repr ((s.data.map Char.utf8Size).sum) ++ "\x7d\r\n" ++ s

/-! ### message.go: `GetLastNUIDs` -/

/-- `GetLastNUIDs` from message.go, parameterised by the outcome of the
inner `GetUIDs("ALL")` network call: for `n ≤ 0` the call returns `nil`
without touching the server; otherwise the full list is returned when it
has at most `n` elements, and the tail `allUIDs[len-n:]` otherwise. -/
def GetLastNUIDs (n : Int) (searchAll : Except String (List Int)) :
    Except String (List Int) :=
  if n ≤ 0 then .ok []
  else
    match searchAll with
    | .error e => .error e
    | .ok allUIDs =>
      if (allUIDs.length : Int) ≤ n then .ok allUIDs
      else .ok (allUIDs.drop (allUIDs.length - n.toNat))

/-! ### parse.go: `calculateTokenEnd` -/

/-- `calculateTokenEnd` from parse.go, verbatim: the end position of a
byte-counted literal given its declared size and the buffer length. -/
def calculateTokenEnd (tokenStart sizeVal bufferLen : Int) :
    Except String Int :=
  if tokenStart ≥ bufferLen then
    if sizeVal = 0 then .ok (tokenStart - 1)
    else
      .error ("TAtom: literal size " ++ toString sizeVal ++ " but tokenStart "
        ++ toString tokenStart ++ " is at/past end of buffer " ++ toString bufferLen)
  else if tokenStart + sizeVal > bufferLen then .ok (bufferLen - 1)
  else .ok (tokenStart + sizeVal - 1)

/-! ### parse.go: the FETCH tokenizer `parseFetchTokens`

The Go loop walks the response byte by byte with a current-token mode, a
token start index and a stack of containers mutated through pointers.  The
embedding keeps the same cursor discipline; the pointer-linked container
stack becomes a zipper: `stack` holds the token lists of the enclosing
containers (innermost first) and `cur` the tokens of the container being
filled. -/

/-- The token tree produced by the FETCH tokenizer (`Token` / `TType` in
parse.go): byte-counted atoms, numbers, bare literals, quoted strings, the
`NIL` sentinel, and parenthesised containers. -/
inductive Token where
  | atomT (s : List Nat)
  | numberT (n : Nat)
  | literalT (s : List Nat)
  | quotedT (s : List Nat)
  | nilT
  | containerT (ts : List Token)

/-- The `currentToken` mode of the Go loop.  `TContainer` is pushed in the
same iteration it is set, so it never survives to the next iteration and
needs no mode here. -/
inductive Mode where
  | unset
  | quotedM
  | literalM
  | atomM
deriving DecidableEq, Repr

/-- `RemoveSlashes` from vars.go: replace every `\"` by `"`
(left-to-right, non-overlapping), on bytes. -/
def removeSlashes : List Nat → List Nat
  | [] => []
  | 92 :: 34 :: rest => 34 :: removeSlashes rest
  | b :: rest => b :: removeSlashes rest

/-- Go slice `r[a:b]` of a byte string. -/
def extractBytes (r : List Nat) (a b : Nat) : List Nat := (r.take b).drop a

/-- `pushToken` for a finished run in `TLiteral` mode: a run of digits is a
number (`strconv.Atoi` succeeds), the run `NIL` is the nil sentinel, and
anything else stays a literal.  (64-bit overflow of `Atoi` is not
modelled; every literal in the claims is tiny.) -/
def mkLiteralToken (s : List Nat) : Token :=
  match atoiBytes? s with
  | some n => Token.numberT n
  | none => if s == [78, 73, 76] then Token.nilT else Token.literalT s

/-- Mutable state of one iteration of the Go tokenizer loop. -/
structure LoopState where
  i : Nat
  mode : Mode
  tokenStart : Nat
  stack : List (List Token)
  cur : List Token

/-- `pushToken` applied at end of input (`tokenEnd = l - 1`): builds the
pending token, if any, from the bytes `r[tokenStart : tokenEnd+1]`. -/
def pendingToken (r : List Nat) (mode : Mode) (tokenStart tokenEnd : Nat) :
    Option Token :=
  match mode with
  | .unset => none
  | .quotedM => some (Token.quotedT (removeSlashes (extractBytes r tokenStart (tokenEnd + 1))))
  | .literalM => some (mkLiteralToken (extractBytes r tokenStart (tokenEnd + 1)))
  | .atomM => some (Token.atomT (extractBytes r tokenStart (tokenEnd + 1)))

/-- The `Cont:` label of the Go loop: advance the cursor and, when it moves
to or past the end of input, push the pending token with
`tokenEnd = l - 1`. -/
def contStep (r : List Nat) (st : LoopState) : LoopState :=
  let l := r.length
  let i' := st.i + 1
  if i' ≥ l then
    match pendingToken r st.mode st.tokenStart (l - 1) with
    | none => { st with i := i' }
    | some t => { st with i := i', mode := .unset, cur := st.cur ++ [t] }
  else { st with i := i' }

/-- The `if currentToken == TUnset` switch of the Go loop, entered with the
byte `b` read at the top of the iteration (the cursor may have moved since,
which is why `b` is passed separately, exactly as in the source). -/
def unsetSwitch (r : List Nat) (st : LoopState) (b : Nat) :
    Except String LoopState :=
  if b == 34 then
    .ok (contStep r { st with mode := .quotedM, tokenStart := st.i + 1 })
  else if IsLiteral b then
    .ok (contStep r { st with mode := .literalM, tokenStart := st.i })
  else if b == 123 then
    .ok (contStep r { st with mode := .atomM, tokenStart := st.i + 1 })
  else if b == 40 then
    .ok (contStep r { st with stack := st.cur :: st.stack, cur := [] })
  else if b == 41 then
    match st.stack with
    | [] => .error ("unmatched ')' at char " ++ toString st.i)
    | parent :: rest =>
      .ok (contStep r
        { st with stack := rest, cur := parent ++ [Token.containerT st.cur] })
  else .ok (contStep r st)

/-- One full iteration of the Go tokenizer loop at `st.i < r.length`. -/
def parseStep (r : List Nat) (st : LoopState) : Except String LoopState :=
  let l := r.length
  let b := r.getD st.i 0
  match st.mode with
  | .quotedM =>
    if b == 34 then
      let t := Token.quotedT (removeSlashes (extractBytes r st.tokenStart st.i))
      .ok (contStep r { st with mode := .unset, cur := st.cur ++ [t] })
    else if b == 92 then
      .ok (contStep r { st with i := st.i + 1 })
    else .ok (contStep r st)
  | .literalM =>
    if IsLiteral b then .ok (contStep r st)
    else
      let t := mkLiteralToken (extractBytes r st.tokenStart st.i)
      unsetSwitch r { st with mode := .unset, cur := st.cur ++ [t] } b
  | .atomM =>
    if isDigitByte b then .ok (contStep r st)
    else
      match atoiBytes? (extractBytes r st.tokenStart st.i) with
      | none => .error "TAtom size Atoi failed"
      | some sizeVal =>
        let i1 := st.i + 1
        let i2 := if i1 < l && r.getD i1 0 == 13 then i1 + 1 else i1
        let i3 := if i2 < l && r.getD i2 0 == 10 then i2 + 1 else i2
        match calculateTokenEnd (i3 : Int) (sizeVal : Int) (l : Int) with
        | .error e => .error e
        | .ok te =>
          let tokenEnd := te.toNat
          let t := Token.atomT (extractBytes r i3 (tokenEnd + 1))
          unsetSwitch r
            { st with i := tokenEnd, mode := .unset, cur := st.cur ++ [t] } b
  | .unset => unsetSwitch r st b

/-- Fuelled driver of the tokenizer loop; every iteration strictly
increases the cursor, so `r.length + 1` units of fuel always suffice. -/
def runParse (r : List Nat) : Nat → LoopState → Except String LoopState
  | 0, _ => .error "fuel exhausted"
  | fuel + 1, st =>
    if st.i < r.length then
      match parseStep r st with
      | .error e => .error e
      | .ok st' => runParse r fuel st'
    else .ok st

/-- `parseFetchTokens` from parse.go: run the loop, reject unbalanced
parentheses, and unwrap a single top-level container once. -/
def parseFetchTokens (r : List Nat) : Except String (List Token) :=
  match runParse r (r.length + 1) ⟨0, .unset, 0, [], []⟩ with
  | .error e => .error e
  | .ok st =>
    if !st.stack.isEmpty then
      .error ("mismatched parentheses, depth " ++ toString st.stack.length
        ++ " at end of parsing")
    else
      match st.cur with
      | [Token.containerT ts] => .ok ts
      | toks => .ok toks

/-- The defensive flattening loop of the overview/email consumers
(`for len(tks) == 1 && tks[0].Type == TContainer { tks = tks[0].Tokens }`
in message.go). -/
def flattenRecord : List Token → List Token
  | [Token.containerT ts] => flattenRecord ts
  | tks => tks

/-! ### IDLE events: `runIdleEvent` and the line callback of `startIdleSingle` -/

/-- Go `strings.ToUpper` restricted to ASCII (all IDLE lines handled in the
claims are ASCII; `Char.toUpper` uppercases exactly the ASCII letters). -/
def goToUpper (s : String) : String := String.mk (s.data.map Char.toUpper)

/-- Go `strings.FieldsFunc`: split around runs of separator characters,
dropping empty fields. -/
def fieldsBy (p : Char → Bool) : List Char → List Char → List String
  | [], acc => if acc.isEmpty then [] else [String.mk acc.reverse]
  | c :: rest, acc =>
    if p c then
      if acc.isEmpty then fieldsBy p rest []
      else String.mk acc.reverse :: fieldsBy p rest []
    else fieldsBy p rest (c :: acc)

/-- `fmt.Sscanf(data, "%d %s", &index, &event)`: skip spaces, read a signed
integer, skip spaces, read a non-space word; fails unless both items are
scanned. -/
def sscanfIndexEvent (s : String) : Option (Int × String) :=
  let cs := s.data.dropWhile isGoSpace
  let signed : Int × List Char :=
    match cs with
    | '-' :: r => (-1, r)
    | '+' :: r => (1, r)
    | _ => (1, cs)
  let ds := signed.2.takeWhile Char.isDigit
  if ds.isEmpty then none
  else
    let n : Nat := ds.foldl (fun n c => n * 10 + (c.toNat - 48)) 0
    let rest := (signed.2.drop ds.length).dropWhile isGoSpace
    let w := rest.takeWhile (fun c => !isGoSpace c)
    if w.isEmpty then none else some (signed.1 * n, String.mk w)

/-- Helper for the FETCH-event regex: does a `FLAGS` keyword
(case-insensitively) start at position `p` of the `[^)]*` run, followed by
`\s*` and then a literal `(`?  Returns the index of that `(`. -/
def flagsAt (run : List Char) (p : Nat) : Option Nat :=
  if ((run.drop p).take 5).map Char.toUpper == "FLAGS".data then
    let afterKw := p + 5
    let sp := (run.drop afterKw).takeWhile isGoSpace
    let q := afterKw + sp.length
    if q < run.length && (run.getD q ' ') == '(' then some q else none
  else none

/-- Backtracking position of the greedy `[^)]*` before `FLAGS\s*\(`: the
largest `p` at which `flagsAt` succeeds. -/
def findFlagsPos (run : List Char) : Option (Nat × Nat) :=
  (List.range run.length).reverse.findSome?
    (fun p => (flagsAt run p).map (fun q => (p, q)))

/-- The submatches of Go regexp
`(?i)^(\d+)\s+FETCH\s+\(([^)]*FLAGS\s*\(([^)]*)\)[^)]*)` applied to `s`:
`none` when the pattern does not match, otherwise the three capture
groups.  The greedy `[^)]*` runs are resolved exactly as a backtracking
search does: the first `[^)]*` keeps as much as possible (`findFlagsPos`
picks the rightmost `FLAGS`), the third consumes every non-`)` character
up to the parenthesis closing the flag list. -/
def fetchEventRegexMatch (s : String) : Option (String × String × String) :=
  let cs := s.data
  let ds := cs.takeWhile Char.isDigit
  if ds.isEmpty then none
  else
    let r1 := cs.drop ds.length
    let ws1 := r1.takeWhile isGoSpace
    if ws1.isEmpty then none
    else
      let r2 := r1.drop ws1.length
      if (r2.take 5).map Char.toUpper == "FETCH".data && r2.length ≥ 5 then
        let r3 := r2.drop 5
        let ws2 := r3.takeWhile isGoSpace
        if ws2.isEmpty then none
        else
          match r3.drop ws2.length with
          | '(' :: s2 =>
            let run := s2.takeWhile (fun c => c ≠ ')')
            match findFlagsPos run with
            | none => none
            | some (_, q) =>
              if run.length < s2.length then
                let g3 := run.drop (q + 1)
                let tail := (s2.drop (run.length + 1)).takeWhile (fun c => c ≠ ')')
                let g2 := s2.take (run.length + 1 + tail.length)
                some (String.mk ds, String.mk g2, String.mk g3)
              else none
          | _ => none
      else none

/-- An unsolicited-line event delivered to the IDLE handler
(`ExistsEvent` / `ExpungeEvent` / `FetchEvent`). -/
inductive IdleEvent where
  | existsE (messageIndex : Int)
  | expungeE (messageIndex : Int)
  | fetchE (messageIndex : Int) (uid : Nat) (flags : List String)
deriving DecidableEq, Repr

/-- `runIdleEvent` from the IDLE module, with every callback installed:
`.ok none` when no event is delivered, `.ok (some e)` when the handler
receives `e`, `.error` on a format failure.  The `uid` field reproduces
`uint32(uid)` on the discarded-error `strconv.Atoi(matches[2])`. -/
def runIdleEvent (data : String) : Except String (Option IdleEvent) :=
  match sscanfIndexEvent data with
  | none => .error ("invalid IDLE event format: " ++ data)
  | some (index, event) =>
    if event == "EXISTS" then .ok (some (.existsE index))
    else if event == "EXPUNGE" then .ok (some (.expungeE index))
    else if event == "FETCH" then
      match fetchEventRegexMatch data with
      | some (g1, g2, g3) =>
        let messageIndex := (atoiInt? g1).getD 0
        let uidInt := (atoiInt? g2).getD 0
        let uid := (uidInt % (2 ^ 32 : Int)).toNat
        let flags := fieldsBy (fun c => isGoSpace c || c == ',')
          (g3.data.filter (fun c => c ≠ '\\')) []
        .ok (some (.fetchE messageIndex uid flags))
      | none => .error ("invalid FETCH event format: " ++ data)
    else .ok none

/-- The `processLine` callback installed by `startIdleSingle`, restricted to
its event outcome: the line is uppercased, continuation and status lines
yield no event, `BYE` is an error, and remaining `* `-lines are handed to
`runIdleEvent`. -/
def idleProcessLine (line : String) : Except String (Option IdleEvent) :=
  let line := goToUpper line
  if ("+".data).isPrefixOf line.data then .ok none
  else if ("* ".data).isPrefixOf line.data then
    let strLine := String.mk (line.data.drop 2)
    if ("OK".data).isPrefixOf strLine.data then .ok none
    else if ("BYE".data).isPrefixOf strLine.data then
      .error ("server sent BYE: " ++ line)
    else runIdleEvent strLine
  else .ok none

/-! ### exec.go: the default command tag

The tag is `strings.ToUpper(xid.New().String())`.  The `rs/xid` package is
a dependency whose source is not under src/, so its encoding is modelled
from the spec. -/

/-- The base32hex alphabet after `strings.ToUpper`. -/
def base32hexUpper : List Char := "0123456789ABCDEFGHIJKLMNOPQRSTUV".data

/-- Modelled from the spec: `xid.ID.String()` renders the 96-bit big-endian
id value as 20 base32hex digits (the 96 bits are left-aligned in
20 × 5 = 100 bits, i.e. the value is shifted left by 4); character `i` is
digit `19 - i` of `x * 16` in base 32.  Uppercasing the lowercase alphabet
gives `base32hexUpper`. -/
def tagChar (x i : Nat) : Char := base32hexUpper.getD (x * 16 / 32 ^ (19 - i) % 32) '0'

/-- The default tag for the 96-bit id value `x`: 20 uppercase base32hex
characters. -/
def tagOfId (x : Nat) : String := String.mk ((List.range 20).map (tagChar x))

/-- Modelled from the spec: an xid is 12 bytes, `time(4) | machine(3) |
pid(2) | counter(3)`; the high 9 bytes are arbitrary per call and the low
3 bytes are a counter incremented on every `xid.New()`. -/
def xidVal (hi counter : Nat) : Nat := hi % 2 ^ 72 * 2 ^ 24 + counter % 2 ^ 24

/-- The tag of the `k`-th successive `xid.New()` call: high bytes `hi k`,
counter `c0 + k`. -/
def nthTag (hi : Nat → Nat) (c0 k : Nat) : String := tagOfId (xidVal (hi k) (c0 + k))

/-! ### conn.go / exec.go / folder.go: the session state machine

Commands are sent over a socket to a server; the embedding abstracts the
server as an oracle deciding, per command text, whether the tagged reply is
`OK` (`accept`), plus whether dialing succeeds.  The mutually recursive
call graph `Exec → Reconnect → Login/Authenticate/ExamineFolder/SelectFolder
→ Exec` is interpreted with explicit fuel. -/

/-- The session fields touched by the connection lifecycle (`Dialer` in
conn.go). -/
structure Session where
  folder : String
  readOnly : Bool
  connected : Bool
  username : String
  password : String
  useXOAUTH2 : Bool
deriving DecidableEq, Repr

/-- Deterministic server oracle: which command texts get a tagged `OK`, and
whether TCP+TLS dialing succeeds. -/
structure Server where
  accept : String → Bool
  dialOk : Bool

/-- `AddSlashes` from vars.go: escape `"` as `\"`. -/
def addSlashes (s : String) : String :=
  String.mk (s.data.foldr (fun c acc => if c = '"' then '\\' :: '"' :: acc else c :: acc) [])

/-- The command text sent by `Login` (auth module):
`LOGIN "<user>" "<password>"` with quotes escaped. -/
def loginCommand (u p : String) : String :=
  "LOGIN \"" ++ addSlashes u ++ "\" \"" ++ addSlashes p ++ "\""

/-- The XOAUTH2 payload `user=<u>\x01auth=Bearer <tok>\x01\x01`.  The
base64 step performed by the `xoauth2` dependency is an injective pure
encoding and is left out; no claim depends on the encoded text. -/
def xoauth2String (u tok : String) : String :=
  "user=" ++ u ++ "\x01auth=Bearer " ++ tok ++ "\x01\x01"

/-- The command text sent by `Authenticate` (auth module). -/
def authenticateCommand (u tok : String) : String :=
  "AUTHENTICATE XOAUTH2 " ++ xoauth2String u tok

/-- The command text sent by `ExamineFolder` (folder.go). -/
def examineCommand (f : String) : String := "EXAMINE \"" ++ addSlashes f ++ "\""

/-- The command text sent by `SelectFolder` (folder.go). -/
def selectCommand (f : String) : String := "SELECT \"" ++ addSlashes f ++ "\""

/-- The operations of the connection lifecycle that call each other. -/
inductive Act where
  | exec (cmd : String) (budget : Nat)
  | reconnect
  | login
  | authenticate
  | examine (f : String)
  | selectF (f : String)

/-- Fuelled interpreter of the connection lifecycle.  `rc` is the global
`RetryCount`.  Per act:

* `exec cmd budget` is `Exec` from exec.go under the `retry.Retry` wrapper
  (semantics per spec §4.1: an attempt sends the command and fails on a
  non-`OK` tagged reply; on failure with remaining budget the recovery
  closes the socket and reconnects, then re-enters; a budget of zero
  disables retry; a failed reconnect aborts with its error);
* `reconnect` is `Reconnect` from conn.go: close, dial, re-authenticate
  with the original method (closing and disconnecting on auth failure),
  then restore a previously selected folder in its recorded mode;
* `login` / `authenticate` send their command through `Exec` with a retry
  budget of 0;
* `examine f` / `selectF f` are `ExamineFolder` / `SelectFolder` from
  folder.go: send through `Exec` with budget `rc`, and only on success set
  `folder` and `readOnly`. -/
def run (srv : Server) (rc : Nat) :
    Nat → Act → Session → List String → Session × List String × Except String Unit
  | 0, _, s, tr => (s, tr, .error "fuel exhausted")
  | fuel + 1, act, s, tr =>
    match act with
    | .exec cmd budget =>
      let tr1 := tr ++ [cmd]
      if srv.accept cmd then (s, tr1, .ok ())
      else
        match budget with
        | 0 => (s, tr1, .error ("imap command failed: " ++ cmd))
        | b + 1 =>
          let s1 := { s with connected := false }
          match run srv rc fuel .reconnect s1 tr1 with
          | (s2, tr2, .error e) => (s2, tr2, .error e)
          | (s2, tr2, .ok _) => run srv rc fuel (.exec cmd b) s2 tr2
    | .reconnect =>
      let s0 := { s with connected := false }
      if !srv.dialOk then (s0, tr, .error "imap reconnect dial")
      else
        let s1 := { s0 with connected := true }
        match run srv rc fuel (if s1.useXOAUTH2 then .authenticate else .login) s1 tr with
        | (s2, tr2, .error e) =>
          ({ s2 with connected := false }, tr2, .error ("imap reconnect auth: " ++ e))
        | (s2, tr2, .ok _) =>
          if s2.folder == "" then (s2, tr2, .ok ())
          else
            match run srv rc fuel
                (if s2.readOnly then .examine s2.folder else .selectF s2.folder) s2 tr2 with
            | (s3, tr3, .error e) => (s3, tr3, .error ("imap reconnect restore: " ++ e))
            | (s3, tr3, .ok _) => (s3, tr3, .ok ())
    | .login => run srv rc fuel (.exec (loginCommand s.username s.password) 0) s tr
    | .authenticate =>
      run srv rc fuel (.exec (authenticateCommand s.username s.password) 0) s tr
    | .examine f =>
      match run srv rc fuel (.exec (examineCommand f) rc) s tr with
      | (s1, tr1, .error e) => (s1, tr1, .error e)
      | (s1, tr1, .ok _) => ({ s1 with folder := f, readOnly := true }, tr1, .ok ())
    | .selectF f =>
      match run srv rc fuel (.exec (selectCommand f) rc) s tr with
      | (s1, tr1, .error e) => (s1, tr1, .error e)
      | (s1, tr1, .ok _) => ({ s1 with folder := f, readOnly := false }, tr1, .ok ())

/-- The session created by `New` before authentication. -/
def newSession (u p : String) : Session :=
  { folder := "", readOnly := false, connected := true,
    username := u, password := p, useXOAUTH2 := false }

/-- `New` from conn.go: dial with retries (no command is sent while dialing
fails), then authenticate exactly once outside the retry loop, closing the
socket and returning the error on rejection. -/
def NewModel (srv : Server) (rc fuel : Nat) (u p : String) :
    Session × List String × Except String Unit :=
  if !srv.dialOk then
    ({ newSession u p with connected := false }, [], .error "failed to dial")
  else
    match run srv rc fuel .login (newSession u p) [] with
    | (s1, tr, .error e) => ({ s1 with connected := false }, tr, .error e)
    | (s1, tr, .ok _) => (s1, tr, .ok ())

/-- Is a command text a `LOGIN` command, as a server observes it? -/
def isLoginCmd (c : String) : Bool := c.data.take 6 == "LOGIN ".data

/-- Is a command text an `AUTHENTICATE` command, as a server observes it? -/
def isAuthenticateCmd (c : String) : Bool := c.data.take 13 == "AUTHENTICATE ".data

/-- The session created by `NewWithOAuth2` before authentication. -/
def newSessionOAuth (u tok : String) : Session :=
  { folder := "", readOnly := false, connected := true,
    username := u, password := tok, useXOAUTH2 := true }

/-- `NewWithOAuth2` from conn.go: dial with retries, then run
`AUTHENTICATE XOAUTH2` exactly once outside the retry loop, closing the
socket and returning the error on rejection. -/
def NewWithOAuth2Model (srv : Server) (rc fuel : Nat) (u tok : String) :
    Session × List String × Except String Unit :=
  if !srv.dialOk then
    ({ newSessionOAuth u tok with connected := false }, [], .error "failed to dial")
  else
    match run srv rc fuel .authenticate (newSessionOAuth u tok) [] with
    | (s1, tr, .error e) => ({ s1 with connected := false }, tr, .error e)
    | (s1, tr, .ok _) => (s1, tr, .ok ())

/-- What an act does to the `folder` / `readOnly` fields of the session:
every act preserves them, except that a *successful* `ExamineFolder` or
`SelectFolder` sets them to the requested mailbox and its access mode. -/
def actFieldSpec (act : Act) (s s' : Session) (res : Except String Unit) : Prop :=
  match act with
  | .examine f =>
    (s'.folder = s.folder ∧ s'.readOnly = s.readOnly ∧ ∀ u, res ≠ .ok u) ∨
    (res = .ok () ∧ s'.folder = f ∧ s'.readOnly = true)
  | .selectF f =>
    (s'.folder = s.folder ∧ s'.readOnly = s.readOnly ∧ ∀ u, res ≠ .ok u) ∨
    (res = .ok () ∧ s'.folder = f ∧ s'.readOnly = false)
  | _ => s'.folder = s.folder ∧ s'.readOnly = s.readOnly

/-! ### folder.go: total email count across folders -/

/-- A match of the Go regexp `\* (\d+) EXISTS` anchored at the head of the
character list: returns the digit group.  The greedy `(\d+)` must take the
maximal digit run, since a digit can never satisfy the following literal
space. -/
def existsMatchAt (cs : List Char) : Option (List Char) :=
  match cs with
  | '*' :: ' ' :: rest =>
    let ds := rest.takeWhile Char.isDigit
    if ds.isEmpty then none
    else if (" EXISTS".data).isPrefixOf (rest.drop ds.length) then some ds else none
  | _ => none

/-- Leftmost match of `\* (\d+) EXISTS`. -/
def findExistsSubmatch : List Char → Option (List Char)
  | [] => none
  | c :: rest =>
    match existsMatchAt (c :: rest) with
    | some ds => some ds
    | none => findExistsSubmatch rest

/-- Go `regexp.FindStringSubmatch` for `\* (\d+) EXISTS`: `nil` (the empty
list) when there is no match, otherwise the full match followed by the
digit group. -/
def findStringSubmatchExists (r : String) : List String :=
  match findExistsSubmatch r.data with
  | none => []
  | some ds => ["* " ++ String.mk ds ++ " EXISTS", String.mk ds]

/-- Per-folder server oracle for the counting loop: whether
`ExamineFolder` succeeds for a folder, and the outcome of the subsequent
`SELECT "<folder>"` command. -/
structure FolderSrv where
  examineOk : String → Bool
  selectResult : String → Except String String

/-- The per-folder body of `GetTotalEmailCountStartingFromExcluding`
(folder.go): a failed `EXAMINE` skips the folder; a failed `SELECT`
contributes nothing; otherwise the first `* <n> EXISTS` group is converted
with `strconv.Atoi` under the `len(matches) > 1` guard and added. -/
def folderContribution (fs : FolderSrv) (f : String) : Nat :=
  if fs.examineOk f then
    match fs.selectResult f with
    | .error _ => 0
    | .ok r =>
      let ms := findStringSubmatchExists r
      if ms.length > 1 then
        match atoiInt? (ms.getD 1 "") with
        | some n => n.toNat
        | none => 0
      else 0
  else 0

/-- The folder loop of `GetTotalEmailCountStartingFromExcluding`: skip
until `startFolder` is seen (processing it too), skip excluded folders,
and sum the per-folder contributions. -/
def countLoop (fs : FolderSrv) (startFolder : String) (excluded : List String) :
    List String → Bool → Nat
  | [], _ => 0
  | f :: rest, started =>
    if !started && !(f == startFolder) then countLoop fs startFolder excluded rest started
    else
      (if excluded.contains f then 0 else folderContribution fs f) +
        countLoop fs startFolder excluded rest true

/-- `GetTotalEmailCountStartingFromExcluding` from folder.go, parameterised
by the outcome of `GetFolders` and per-folder oracles: only a `GetFolders`
failure is returned as an error; the loop itself always completes with a
count (the original folder restore at the end discards its errors). -/
def GetTotalEmailCountStartingFromExcluding (fs : FolderSrv)
    (startFolder : String) (excluded : List String)
    (folders : Except String (List String)) : Except String Nat :=
  match folders with
  | .error e => .error e
  | .ok fl => .ok (countLoop fs startFolder excluded fl (startFolder == ""))

/-! ## Theorems -/

/-- A string's UTF-8 byte size is the sum of the encoding sizes of its
characters. -/
theorem utf8ByteSize_eq_sum (s : String) :
    s.utf8ByteSize = (s.data.map Char.utf8Size).sum := by
  cases s with
  | mk data =>
    induction data with
    | nil => rfl
    | cons c cs ih =>
      simp [String.utf8ByteSize, String.utf8ByteSize.go] at ih ⊢
      omega

/-- C2: the code delivers the FETCH idle event for
`* 3 FETCH (UID 1000 FLAGS (\Seen \Flagged))` with message index 3 but
with UID 0 and uppercased flags, not UID 1000 and flags
`["Seen", "Flagged"]` as claimed: the regex's second capture group is the
whole group contents, `strconv.Atoi` fails on it and the discarded error
leaves the UID at zero, while `startIdleSingle` has already uppercased the
line. -/
theorem C2_idle_fetch_event_delivery :
    idleProcessLine "* 3 FETCH (UID 1000 FLAGS (\\Seen \\Flagged))\r\n" =
      .ok (some (.fetchE 3 0 ["SEEN", "FLAGGED"])) ∧
    fetchEventRegexMatch "3 FETCH (UID 1000 FLAGS (\\SEEN \\FLAGGED))\r\n" =
      some ("3", "UID 1000 FLAGS (\\SEEN \\FLAGGED)", "\\SEEN \\FLAGGED") ∧
    atoiInt? "UID 1000 FLAGS (\\SEEN \\FLAGGED)" = none :=
  ⟨rfl, rfl, rfl⟩

/-- C3: `parseUIDSearchResponse` returns `[123, 456]` for the plain
response and the empty list for a `* SEARCH` with no numbers, but it
truncates the input at the *first* CRLF, so a `+ Ready` continuation
preamble makes it return an error instead of the UID list the claim (and
the repository's own test) expects. -/
theorem C3_uid_search_parse :
    parseUIDSearchResponse "* SEARCH 123 456\r\nA1 OK SEARCH completed\r\n" =
      .ok [123, 456] ∧
    parseUIDSearchResponse "* SEARCH\r\nA1 OK SEARCH completed\r\n" = .ok [] ∧
    parseUIDSearchResponse
        ("+ Ready\r\n* SEARCH 15461 15469 15470 15485 15491 15497\r\n"
          ++ "A144 OK UID SEARCH completed\r\n") =
      .error "invalid response: + Ready" :=
  ⟨rfl, rfl, rfl⟩

/-- C8: `MakeIMAPLiteral s` is `{n}` followed by CRLF and `s`, where `n`
counts UTF-8 bytes, not codepoints; the four-character Cyrillic string
`тест` yields `{8}`. -/
theorem C8_make_imap_literal :
    (∀ s, MakeIMAPLiteral s = makeLiteralSpec s) ∧
    MakeIMAPLiteral "тест" = "\x7b8\x7d\r\nтест" ∧
    "тест".length = 4 ∧ "тест".utf8ByteSize = 8 := by
  refine ⟨fun s => ?_, by decide, by decide, by decide⟩
  unfold MakeIMAPLiteral makeLiteralSpec
  rw [utf8ByteSize_eq_sum]

/-- C9: `GetLastNUIDs n` yields the empty list for `n ≤ 0`, the full UID
list when `n` is at least its length, and otherwise exactly the length-`n`
tail of the list returned by `GetUIDs("ALL")` — which consists of the `n`
highest UIDs whenever that list is ascending. -/
theorem C9_get_last_n_uids (n : Int) (res : Except String (List Int)) (all : List Int) :
    (n ≤ 0 → GetLastNUIDs n res = .ok []) ∧
    (res = .ok all → (all.length : Int) ≤ n → GetLastNUIDs n res = .ok all) ∧
    (res = .ok all → 0 < n → n < (all.length : Int) →
      GetLastNUIDs n res = .ok (all.drop (all.length - n.toNat)) ∧
      (all.drop (all.length - n.toNat)).length = n.toNat ∧
      (all.Sorted (· ≤ ·) →
        ∀ x ∈ all.take (all.length - n.toNat),
          ∀ y ∈ all.drop (all.length - n.toNat), x ≤ y)) := by
  refine ⟨fun h => ?_, fun hres h => ?_, fun hres h0 hlt => ?_⟩
  · simp [GetLastNUIDs, h]
  · subst hres
    by_cases h0 : n ≤ 0
    · have hlen : all.length = 0 := by omega
      have hnil : all = [] := List.eq_nil_of_length_eq_zero hlen
      simp [GetLastNUIDs, hnil]
    · simp [GetLastNUIDs, h0, h]
  · subst hres
    have h0n : ¬ n ≤ 0 := by omega
    have hle : ¬ (all.length : Int) ≤ n := by omega
    have htn : n.toNat ≤ all.length := by omega
    refine ⟨by simp [GetLastNUIDs, h0n, hle], by simp [List.length_drop]; omega, ?_⟩
    intro hsort x hx y hy
    have hpw : List.Pairwise (· ≤ ·)
        (all.take (all.length - n.toNat) ++ all.drop (all.length - n.toNat)) := by
      rw [List.take_append_drop]; exact hsort
    exact (List.pairwise_append.mp hpw).2.2 x hx y hy

/-- Witness for C9 at `n = -3`, `n = 7` and `n = 2` against the UID list
`[1, 5, 9]`. -/
theorem C9_get_last_n_uids_witness :
    GetLastNUIDs (-3) (.ok ([1, 5, 9] : List Int)) = .ok [] ∧
    GetLastNUIDs 7 (.ok ([1, 5, 9] : List Int)) = .ok [1, 5, 9] ∧
    GetLastNUIDs 2 (.ok ([1, 5, 9] : List Int)) = .ok [5, 9] := by
  refine ⟨(C9_get_last_n_uids (-3) _ []).1 (by decide),
    (C9_get_last_n_uids 7 _ [1, 5, 9]).2.1 rfl (by decide), ?_⟩
  exact ((C9_get_last_n_uids 2 (.ok [1, 5, 9]) [1, 5, 9]).2.2 rfl (by decide)
    (by decide)).1

/-- C4: boundary behaviour of byte-counted literals in the FETCH
tokenizer. In `calculateTokenEnd`: a declared size of 0 at or past the end
of the buffer yields `tokenStart - 1` (an empty atom slice), a size
overshooting a non-empty remainder is truncated to the end of the buffer,
and a non-zero size with no remaining bytes is a hard error whose message
contains `literal size`.  The tokenizer-level effects are evaluated on
concrete inputs: `{0}` at end of input parses to an empty atom, `{5}`
before only two bytes takes the two available bytes, and `{5}` with
nothing after the CRLF fails with the `literal size` error. -/
theorem C4_literal_boundary_cases :
    (∀ ts bl : Int, bl ≤ ts → calculateTokenEnd ts 0 bl = .ok (ts - 1)) ∧
    (∀ ts sz bl : Int, ts < bl → bl < ts + sz →
      calculateTokenEnd ts sz bl = .ok (bl - 1)) ∧
    (∀ ts sz bl : Int, bl ≤ ts → sz ≠ 0 →
      ∃ e, calculateTokenEnd ts sz bl = .error e ∧
        ∃ post, e.data = "TAtom: ".data ++ "literal size".data ++ post) ∧
    parseFetchTokens (bytesOfAscii "\x7b0\x7d") = .ok [Token.atomT []] ∧
    parseFetchTokens (bytesOfAscii "(BODY \x7b0\x7d\r\n)") =
      .ok [Token.literalT (bytesOfAscii "BODY"), Token.atomT []] ∧
    parseFetchTokens (bytesOfAscii "\x7b5\x7d\r\nab") =
      .ok [Token.atomT (bytesOfAscii "ab")] ∧
    parseFetchTokens (bytesOfAscii "(BODY \x7b5\x7d\r\n") =
      .error "TAtom: literal size 5 but tokenStart 11 is at/past end of buffer 11" ∧
    (∃ post,
      ("TAtom: literal size 5 but tokenStart 11 is at/past end of buffer 11").data
        = "TAtom: ".data ++ "literal size".data ++ post) := by
  refine ⟨fun ts bl h => ?_, fun ts sz bl h1 h2 => ?_, fun ts sz bl h1 h2 => ?_,
    rfl, rfl, rfl, rfl, ⟨" 5 but tokenStart 11 is at/past end of buffer 11".data, by decide⟩⟩
  · simp [calculateTokenEnd, h]
  · unfold calculateTokenEnd
    rw [if_neg (by omega), if_pos (by omega)]
  · refine ⟨_, by unfold calculateTokenEnd; rw [if_pos (by omega), if_neg h2], ?_⟩
    refine ⟨(" " ++ toString sz ++ " but tokenStart " ++ toString ts
      ++ " is at/past end of buffer " ++ toString bl).data, ?_⟩
    have hdec : ("TAtom: literal size " : String) = "TAtom: " ++ "literal size" ++ " " := by
      rfl
    rw [hdec]
    simp [String.data_append, List.append_assoc]

/-- Witness for C4, instantiating the three `calculateTokenEnd` clauses at
`(20, 0, 20)`, `(10, 15, 20)` and `(20, 5, 20)`. -/
theorem C4_literal_boundary_cases_witness :
    calculateTokenEnd 20 0 20 = .ok 19 ∧
    calculateTokenEnd 10 15 20 = .ok 19 ∧
    (∃ e, calculateTokenEnd 20 5 20 = .error e ∧
      ∃ post, e.data = "TAtom: ".data ++ "literal size".data ++ post) := by
  refine ⟨?_, C4_literal_boundary_cases.2.1 10 15 20 (by norm_num) (by norm_num),
    C4_literal_boundary_cases.2.2.1 20 5 20 (by norm_num) (by norm_num)⟩
  have h := C4_literal_boundary_cases.1 20 20 (by norm_num)
  norm_num at h
  exact h

/-- C7: a FETCH record collapsing to a single container is unwrapped until
fields are reached: `parseFetchTokens` strips one redundant outer group
(so the doubly parenthesised `((UID 7))` still parses to a single
container), the consumers' flattening loop removes a container level per
step, and its result is never again a single container. -/
theorem C7_single_container_unwrap :
    parseFetchTokens (bytesOfAscii "(UID 7)") =
      .ok [Token.literalT (bytesOfAscii "UID"), Token.numberT 7] ∧
    parseFetchTokens (bytesOfAscii "((UID 7))") =
      .ok [Token.containerT [Token.literalT (bytesOfAscii "UID"), Token.numberT 7]] ∧
    (∀ ts, flattenRecord [Token.containerT ts] = flattenRecord ts) ∧
    flattenRecord [Token.containerT [Token.literalT (bytesOfAscii "UID"), Token.numberT 7]] =
      [Token.literalT (bytesOfAscii "UID"), Token.numberT 7] ∧
    (∀ tks ts, flattenRecord tks ≠ [Token.containerT ts]) := by
  refine ⟨rfl, rfl, fun ts => by rw [flattenRecord],
    by rw [flattenRecord]; rw [flattenRecord]; simp, ?_⟩
  intro tks
  induction tks using flattenRecord.induct with
  | case1 ts ih => intro ts2; rw [flattenRecord]; exact ih ts2
  | case2 tks h =>
    intro ts2 hc
    rw [flattenRecord] at hc
    · exact h ts2 hc
    · exact h

/-- Witness for C7's flattening clauses at the parsed record of
`((UID 7))`. -/
theorem C7_single_container_unwrap_witness :
    flattenRecord [Token.containerT [Token.containerT [Token.numberT 7]]] =
      [Token.numberT 7] ∧
    flattenRecord [Token.numberT 7] ≠ [Token.containerT []] := by
  refine ⟨?_, C7_single_container_unwrap.2.2.2.2 [Token.numberT 7] []⟩
  rw [C7_single_container_unwrap.2.2.1, C7_single_container_unwrap.2.2.1]
  rw [flattenRecord]; simp

/-- Go object `strings.ToUpper(xid.New().String())`: helper lemma — the tag
string of any id value has exactly 20 characters. -/
theorem tagOfId_length (x : Nat) : (tagOfId x).length = 20 := by
  simp [tagOfId, String.length]

/-- Every character of a tag comes from the uppercase base32hex alphabet,
hence lies in `[0-9A-V]`. -/
theorem tagOfId_chars (x : Nat) : ∀ c ∈ (tagOfId x).data,
    ('0' ≤ c ∧ c ≤ '9') ∨ ('A' ≤ c ∧ c ≤ 'V') := by
  intro c hc
  simp only [tagOfId] at hc
  obtain ⟨i, hi, rfl⟩ := List.mem_map.mp hc
  have hlt : tagChar x i ∈ base32hexUpper := by
    have h32 : x * 16 / 32 ^ (19 - i) % 32 < 32 := Nat.mod_lt _ (by norm_num)
    rw [tagChar, List.getD_eq_getElem _ _ (by simpa [base32hexUpper] using h32)]
    exact List.getElem_mem _
  revert hlt
  have hall : ∀ c ∈ base32hexUpper, ('0' ≤ c ∧ c ≤ '9') ∨ ('A' ≤ c ∧ c ≤ 'V') := by
    decide
  exact hall _

/-- A natural number below `32 ^ k` is determined by its `k` base-32
digits. -/
theorem base32_digits_det (k : Nat) : ∀ n m : Nat, n < 32 ^ k → m < 32 ^ k →
    (∀ j < k, n / 32 ^ j % 32 = m / 32 ^ j % 32) → n = m := by
  induction k with
  | zero => intro n m hn hm _; simp at hn hm; omega
  | succ k ih =>
    intro n m hn hm hd
    have h0 := hd 0 (by omega)
    simp at h0
    have hrec : n / 32 = m / 32 := by
      apply ih
      · rw [pow_succ] at hn; exact Nat.div_lt_of_lt_mul (by linarith)
      · rw [pow_succ] at hm; exact Nat.div_lt_of_lt_mul (by linarith)
      · intro j hj
        have hx := hd (j + 1) (by omega)
        rw [pow_succ'] at hx
        rw [Nat.div_div_eq_div_mul, Nat.div_div_eq_div_mul]
        exact hx
    omega

/-- The uppercase base32hex alphabet maps distinct digit values below 32 to
distinct characters. -/
theorem base32hexUpper_inj : ∀ a < 32, ∀ b < 32,
    base32hexUpper.getD a '0' = base32hexUpper.getD b '0' → a = b := by decide

/-- Tags of distinct 96-bit id values differ. -/
theorem tagOfId_inj (x y : Nat) (hx : x < 2 ^ 96) (hy : y < 2 ^ 96)
    (h : tagOfId x = tagOfId y) : x = y := by
  have hdata : (List.range 20).map (tagChar x) = (List.range 20).map (tagChar y) := by
    have := congrArg String.data h
    simpa [tagOfId] using this
  simp only [List.map_inj_left] at hdata
  have hdig : ∀ j < 20, x * 16 / 32 ^ j % 32 = y * 16 / 32 ^ j % 32 := by
    intro j hj
    have hmem : (19 - j) ∈ List.range 20 := List.mem_range.mpr (by omega)
    have hcc := hdata (19 - j) hmem
    have h19 : 19 - (19 - j) = j := by omega
    rw [tagChar, tagChar, h19] at hcc
    exact base32hexUpper_inj _ (Nat.mod_lt _ (by norm_num)) _
      (Nat.mod_lt _ (by norm_num)) hcc
  have h16 : x * 16 = y * 16 := by
    apply base32_digits_det 20
    · calc x * 16 < 2 ^ 96 * 16 := by omega
        _ = 32 ^ 20 := by norm_num
    · calc y * 16 < 2 ^ 96 * 16 := by omega
        _ = 32 ^ 20 := by norm_num
    · exact hdig
  omega

/-- C5: every tag produced by the default tag generator is exactly 20
characters long, each character lies in `[0-9A-V]`, and any two of 1,000
successively generated tags differ (the three counter bytes of successive
xids differ, whatever the time-dependent high bytes do). -/
theorem C5_tag_format (hi : Nat → Nat) (c0 : Nat) :
    (∀ k, (nthTag hi c0 k).length = 20) ∧
    (∀ k, ∀ c ∈ (nthTag hi c0 k).data,
      ('0' ≤ c ∧ c ≤ '9') ∨ ('A' ≤ c ∧ c ≤ 'V')) ∧
    (∀ j k, j < 1000 → k < 1000 → j ≠ k → nthTag hi c0 j ≠ nthTag hi c0 k) := by
  refine ⟨fun k => tagOfId_length _, fun k => tagOfId_chars _,
    fun j k hj hk hne heq => ?_⟩
  have e72 : (2 : Nat) ^ 72 = 4722366482869645213696 := by norm_num
  have e24 : (2 : Nat) ^ 24 = 16777216 := by norm_num
  have hvb : ∀ m cc, xidVal (hi m) cc < 2 ^ 96 := by
    intro m cc
    have h1 : hi m % 2 ^ 72 < 2 ^ 72 := Nat.mod_lt _ (by norm_num)
    have h2 : cc % 2 ^ 24 < 2 ^ 24 := Nat.mod_lt _ (by norm_num)
    have e96 : (2 : Nat) ^ 96 = 79228162514264337593543950336 := by norm_num
    simp only [xidVal]
    rw [e72] at h1 ⊢
    rw [e24] at h2 ⊢
    rw [e96]
    omega
  have hg := tagOfId_inj _ _ (hvb j (c0 + j)) (hvb k (c0 + k)) heq
  simp only [xidVal] at hg
  rw [e24] at hg
  have hb1 : (c0 + j) % 16777216 < 16777216 := Nat.mod_lt _ (by norm_num)
  have hb2 : (c0 + k) % 16777216 < 16777216 := Nat.mod_lt _ (by norm_num)
  omega

/-- Witness for C5 with constant high bytes 0 and counter start 0, at the
first and second generated tags. -/
theorem C5_tag_format_witness :
    (nthTag (fun _ => 0) 0 0).length = 20 ∧
    (('0' ≤ 'G' ∧ 'G' ≤ '9') ∨ ('A' ≤ 'G' ∧ 'G' ≤ 'V')) ∧
    nthTag (fun _ => 0) 0 0 ≠ nthTag (fun _ => 0) 0 1 :=
  ⟨(C5_tag_format (fun _ => 0) 0).1 0,
    (C5_tag_format (fun _ => 0) 0).2.1 1 'G' (by decide),
    (C5_tag_format (fun _ => 0) 0).2.2 0 1 (by decide) (by decide) (by decide)⟩

/-- C6: the per-folder counting of
`GetTotalEmailCountStartingFromExcluding` never produces an error for any
server responses, and a folder whose `SELECT` response contains no
`* <n> EXISTS` line — or whose `EXAMINE` fails — simply contributes
nothing, thanks to the `len(matches) > 1` guard in front of the submatch
index. -/
theorem C6_count_skips_missing_exists :
    (∀ fs startF excl fl, ∃ n,
      GetTotalEmailCountStartingFromExcluding fs startF excl (.ok fl) = .ok n) ∧
    (∀ fs f r, fs.selectResult f = .ok r → findExistsSubmatch r.data = none →
      folderContribution fs f = 0) ∧
    (∀ fs f, fs.examineOk f = false → folderContribution fs f = 0) := by
  refine ⟨fun fs startF excl fl => ⟨_, rfl⟩, fun fs f r hsel hnone => ?_,
    fun fs f hex => ?_⟩
  · by_cases hex : fs.examineOk f
    · simp [folderContribution, hex, hsel, findStringSubmatchExists, hnone]
    · simp [folderContribution, hex]
  · simp [folderContribution, hex]

/-- Witness for C6 against a server whose `SELECT` response carries no
EXISTS line for any folder. -/
theorem C6_count_skips_missing_exists_witness :
    (∃ n, GetTotalEmailCountStartingFromExcluding
        ⟨fun _ => true, fun _ => .ok "* OK nothing here\r\n"⟩ "" []
        (.ok ["INBOX"]) = .ok n) ∧
    folderContribution ⟨fun _ => true, fun _ => .ok "* OK nothing here\r\n"⟩
      "INBOX" = 0 :=
  ⟨C6_count_skips_missing_exists.1 _ "" [] ["INBOX"],
    C6_count_skips_missing_exists.2.1 _ "INBOX" "* OK nothing here\r\n" rfl rfl⟩

/-- C1: authentication runs with a retry budget of zero.  When the server
rejects the credentials: `New` sends exactly one `LOGIN` command (whatever
`RetryCount` is), surfaces the server error and closes the socket;
`NewWithOAuth2` likewise sends exactly one `AUTHENTICATE XOAUTH2`; and
`Reconnect` makes exactly one re-authentication attempt, leaving the
session disconnected. -/
theorem C1_auth_retry_budget_zero (rc fuel : Nat) (srv : Server) (u p : String)
    (hdial : srv.dialOk = true) :
    (2 ≤ fuel → srv.accept (loginCommand u p) = false →
      (NewModel srv rc fuel u p).2.1 = [loginCommand u p] ∧
      (NewModel srv rc fuel u p).2.2 =
        .error ("imap command failed: " ++ loginCommand u p) ∧
      (NewModel srv rc fuel u p).1.connected = false) ∧
    (2 ≤ fuel → srv.accept (authenticateCommand u p) = false →
      (NewWithOAuth2Model srv rc fuel u p).2.1 = [authenticateCommand u p] ∧
      (NewWithOAuth2Model srv rc fuel u p).2.2 =
        .error ("imap command failed: " ++ authenticateCommand u p) ∧
      (NewWithOAuth2Model srv rc fuel u p).1.connected = false) ∧
    (∀ s : Session, 3 ≤ fuel → s.useXOAUTH2 = false →
      srv.accept (loginCommand s.username s.password) = false →
      (run srv rc fuel .reconnect s []).2.1 = [loginCommand s.username s.password] ∧
      (run srv rc fuel .reconnect s []).1.connected = false ∧
      ∃ e, (run srv rc fuel .reconnect s []).2.2 = .error e) := by
  refine ⟨fun hfuel hrej => ?_, fun hfuel hrej => ?_, fun s hfuel hx hrej => ?_⟩
  · obtain ⟨f, rfl⟩ : ∃ f, fuel = f + 2 := ⟨fuel - 2, by omega⟩
    simp [NewModel, run, hdial, hrej, newSession]
  · obtain ⟨f, rfl⟩ : ∃ f, fuel = f + 2 := ⟨fuel - 2, by omega⟩
    simp [NewWithOAuth2Model, run, hdial, hrej, newSessionOAuth]
  · obtain ⟨f, rfl⟩ : ∃ f, fuel = f + 3 := ⟨fuel - 3, by omega⟩
    simp [run, hdial, hrej, hx]

/-- Witness for C1 against a mock server that rejects every `LOGIN` (and,
in the OAuth case, every `AUTHENTICATE`), with `RetryCount = 3`. -/
theorem C1_auth_retry_budget_zero_witness :
    (NewModel ⟨fun c => !(isLoginCmd c), true⟩ 3 10 "user" "wrong").2.1 =
      [loginCommand "user" "wrong"] ∧
    (NewModel ⟨fun c => !(isLoginCmd c), true⟩ 3 10 "user" "wrong").1.connected
      = false ∧
    (NewWithOAuth2Model ⟨fun c => !(isAuthenticateCmd c), true⟩ 3 10 "user"
      "tok").2.1 = [authenticateCommand "user" "tok"] ∧
    (run ⟨fun c => !(isLoginCmd c), true⟩ 3 10 .reconnect
      ⟨"", false, true, "u", "p", false⟩ []).2.1 = [loginCommand "u" "p"] ∧
    ([loginCommand "user" "wrong"].filter isLoginCmd).length = 1 :=
  ⟨(C1_auth_retry_budget_zero 3 10 _ "user" "wrong" rfl).1 (by omega) (by decide)
      |>.1,
    (C1_auth_retry_budget_zero 3 10 _ "user" "wrong" rfl).1 (by omega) (by decide)
      |>.2.2,
    (C1_auth_retry_budget_zero 3 10 _ "user" "tok" rfl).2.1 (by omega) (by decide)
      |>.1,
    ((C1_auth_retry_budget_zero 3 10 _ "u" "p" rfl).2.2 ⟨"", false, true, "u", "p",
      false⟩ (by omega) rfl (by decide)).1,
    by decide⟩

theorem run_actFieldSpec (srv : Server) (rc : Nat) :
    ∀ fuel act s tr,
      actFieldSpec act s (run srv rc fuel act s tr).1 (run srv rc fuel act s tr).2.2 := by
  intro fuel
  induction fuel with
  | zero =>
    intro act s tr
    cases act <;> simp [run, actFieldSpec]
  | succ fuel ih =>
    intro act s tr
    cases act with
    | exec cmd budget =>
      simp only [run, actFieldSpec]
      by_cases hacc : srv.accept cmd
      · simp [hacc]
      · simp only [hacc, if_false, Bool.false_eq_true]
        cases budget with
        | zero => simp
        | succ b =>
          rcases hrec : run srv rc fuel .reconnect { s with connected := false } (tr ++ [cmd])
            with ⟨s2, tr2, res2⟩
          have h1 := ih .reconnect { s with connected := false } (tr ++ [cmd])
          rw [hrec] at h1
          simp only [actFieldSpec] at h1
          cases res2 with
          | error e => simp [hrec, h1]
          | ok u =>
            have h2 := ih (.exec cmd b) s2 tr2
            simp only [actFieldSpec] at h2
            simp only [hrec]
            exact ⟨h2.1.trans h1.1, h2.2.trans h1.2⟩
    | reconnect =>
      simp only [run, actFieldSpec]
      cases hdial : srv.dialOk with
      | false => simp
      | true =>
        simp only [Bool.not_true, Bool.false_eq_true, if_false]
        cases hx : s.useXOAUTH2 with
        | true =>
          simp only [hx, if_true]
          rcases hauth : run srv rc fuel .authenticate
              { s with connected := true, useXOAUTH2 := true } tr with ⟨s2, tr2, res2⟩
          have h1 := ih .authenticate { s with connected := true, useXOAUTH2 := true } tr
          rw [hauth] at h1
          simp only [actFieldSpec] at h1
          cases res2 with
          | error e => simp [hauth, h1]
          | ok u =>
            cases hf : s2.folder == "" with
            | true =>
              simp only [hauth]
              rw [if_pos hf]
              exact ⟨h1.1, h1.2⟩
            | false =>
              simp only [hauth]
              rw [if_neg (by simp [hf])]
              cases hro : s2.readOnly with
              | true =>
                rw [if_pos rfl]
                rcases hres : run srv rc fuel (.examine s2.folder) s2 tr2
                  with ⟨s3, tr3, res3⟩
                have h2 := ih (.examine s2.folder) s2 tr2
                rw [hres] at h2
                simp only [actFieldSpec] at h2
                cases res3 with
                | error e =>
                  rcases h2 with ⟨hp1, hp2, _⟩ | ⟨hok, _, _⟩
                  · simp only [hres]
                    exact ⟨hp1.trans h1.1, hp2.trans h1.2⟩
                  · cases hok
                | ok u2 =>
                  rcases h2 with ⟨_, _, hne⟩ | ⟨_, hfold, hrovl⟩
                  · cases u2; exact absurd rfl (hne ())
                  · simp only [hres]
                    exact ⟨hfold.trans h1.1, hrovl.trans (hro ▸ h1.2)⟩
              | false =>
                rw [if_neg (by simp)]
                rcases hres : run srv rc fuel (.selectF s2.folder) s2 tr2
                  with ⟨s3, tr3, res3⟩
                have h2 := ih (.selectF s2.folder) s2 tr2
                rw [hres] at h2
                simp only [actFieldSpec] at h2
                cases res3 with
                | error e =>
                  rcases h2 with ⟨hp1, hp2, _⟩ | ⟨hok, _, _⟩
                  · simp only [hres]
                    exact ⟨hp1.trans h1.1, hp2.trans h1.2⟩
                  · cases hok
                | ok u2 =>
                  rcases h2 with ⟨_, _, hne⟩ | ⟨_, hfold, hrovl⟩
                  · cases u2; exact absurd rfl (hne ())
                  · simp only [hres]
                    exact ⟨hfold.trans h1.1, hrovl.trans (hro ▸ h1.2)⟩
        | false =>
          simp only [hx, Bool.false_eq_true, if_false]
          rcases hauth : run srv rc fuel .login
              { s with connected := true, useXOAUTH2 := false } tr with ⟨s2, tr2, res2⟩
          have h1 := ih .login { s with connected := true, useXOAUTH2 := false } tr
          rw [hauth] at h1
          simp only [actFieldSpec] at h1
          cases res2 with
          | error e => simp [hauth, h1]
          | ok u =>
            cases hf : s2.folder == "" with
            | true =>
              simp only [hauth]
              rw [if_pos hf]
              exact ⟨h1.1, h1.2⟩
            | false =>
              simp only [hauth]
              rw [if_neg (by simp [hf])]
              cases hro : s2.readOnly with
              | true =>
                rw [if_pos rfl]
                rcases hres : run srv rc fuel (.examine s2.folder) s2 tr2
                  with ⟨s3, tr3, res3⟩
                have h2 := ih (.examine s2.folder) s2 tr2
                rw [hres] at h2
                simp only [actFieldSpec] at h2
                cases res3 with
                | error e =>
                  rcases h2 with ⟨hp1, hp2, _⟩ | ⟨hok, _, _⟩
                  · simp only [hres]
                    exact ⟨hp1.trans h1.1, hp2.trans h1.2⟩
                  · cases hok
                | ok u2 =>
                  rcases h2 with ⟨_, _, hne⟩ | ⟨_, hfold, hrovl⟩
                  · cases u2; exact absurd rfl (hne ())
                  · simp only [hres]
                    exact ⟨hfold.trans h1.1, hrovl.trans (hro ▸ h1.2)⟩
              | false =>
                rw [if_neg (by simp)]
                rcases hres : run srv rc fuel (.selectF s2.folder) s2 tr2
                  with ⟨s3, tr3, res3⟩
                have h2 := ih (.selectF s2.folder) s2 tr2
                rw [hres] at h2
                simp only [actFieldSpec] at h2
                cases res3 with
                | error e =>
                  rcases h2 with ⟨hp1, hp2, _⟩ | ⟨hok, _, _⟩
                  · simp only [hres]
                    exact ⟨hp1.trans h1.1, hp2.trans h1.2⟩
                  · cases hok
                | ok u2 =>
                  rcases h2 with ⟨_, _, hne⟩ | ⟨_, hfold, hrovl⟩
                  · cases u2; exact absurd rfl (hne ())
                  · simp only [hres]
                    exact ⟨hfold.trans h1.1, hrovl.trans (hro ▸ h1.2)⟩
    | login =>
      simp only [run, actFieldSpec]
      have h := ih (.exec (loginCommand s.username s.password) 0) s tr
      simpa [actFieldSpec] using h
    | authenticate =>
      simp only [run, actFieldSpec]
      have h := ih (.exec (authenticateCommand s.username s.password) 0) s tr
      simpa [actFieldSpec] using h
    | examine f =>
      simp only [run, actFieldSpec]
      rcases hex : run srv rc fuel (.exec (examineCommand f) rc) s tr with ⟨s1, tr1, res1⟩
      have h1 := ih (.exec (examineCommand f) rc) s tr
      rw [hex] at h1
      simp only [actFieldSpec] at h1
      cases res1 with
      | error e => exact Or.inl ⟨h1.1, h1.2, by simp⟩
      | ok u => exact Or.inr ⟨rfl, rfl, rfl⟩
    | selectF f =>
      simp only [run, actFieldSpec]
      rcases hex : run srv rc fuel (.exec (selectCommand f) rc) s tr with ⟨s1, tr1, res1⟩
      have h1 := ih (.exec (selectCommand f) rc) s tr
      rw [hex] at h1
      simp only [actFieldSpec] at h1
      cases res1 with
      | error e => exact Or.inl ⟨h1.1, h1.2, by simp⟩
      | ok u => exact Or.inr ⟨rfl, rfl, rfl⟩


/-- C10: for every server behaviour, retry count and fuel, a failing
`ExamineFolder` or `SelectFolder` leaves the session fields `Folder` and
`ReadOnly` unchanged; only on success are they set to the requested
mailbox, with `ReadOnly` true after `EXAMINE` and false after `SELECT`. -/
theorem C10_examine_select_folder_state (srv : Server) (rc fuel : Nat)
    (s : Session) (tr : List String) (f : String) :
    (∀ e, (run srv rc fuel (.examine f) s tr).2.2 = .error e →
      (run srv rc fuel (.examine f) s tr).1.folder = s.folder ∧
      (run srv rc fuel (.examine f) s tr).1.readOnly = s.readOnly) ∧
    ((run srv rc fuel (.examine f) s tr).2.2 = .ok () →
      (run srv rc fuel (.examine f) s tr).1.folder = f ∧
      (run srv rc fuel (.examine f) s tr).1.readOnly = true) ∧
    (∀ e, (run srv rc fuel (.selectF f) s tr).2.2 = .error e →
      (run srv rc fuel (.selectF f) s tr).1.folder = s.folder ∧
      (run srv rc fuel (.selectF f) s tr).1.readOnly = s.readOnly) ∧
    ((run srv rc fuel (.selectF f) s tr).2.2 = .ok () →
      (run srv rc fuel (.selectF f) s tr).1.folder = f ∧
      (run srv rc fuel (.selectF f) s tr).1.readOnly = false) := by
  have hex := run_actFieldSpec srv rc fuel (.examine f) s tr
  have hsel := run_actFieldSpec srv rc fuel (.selectF f) s tr
  simp only [actFieldSpec] at hex hsel
  refine ⟨fun e he => ?_, fun hok => ?_, fun e he => ?_, fun hok => ?_⟩
  · rcases hex with ⟨h1, h2, _⟩ | ⟨hok2, _, _⟩
    · exact ⟨h1, h2⟩
    · rw [he] at hok2; cases hok2
  · rcases hex with ⟨_, _, hne⟩ | ⟨_, h1, h2⟩
    · exact absurd hok (hne ())
    · exact ⟨h1, h2⟩
  · rcases hsel with ⟨h1, h2, _⟩ | ⟨hok2, _, _⟩
    · exact ⟨h1, h2⟩
    · rw [he] at hok2; cases hok2
  · rcases hsel with ⟨_, _, hne⟩ | ⟨_, h1, h2⟩
    · exact absurd hok (hne ())
    · exact ⟨h1, h2⟩

/-- Witness for C10: a server that rejects `EXAMINE "Bad"` leaves the
selection on INBOX in read-only mode; an accepting server moves the
selection. -/
theorem C10_examine_select_folder_state_witness :
    (run ⟨fun c => !(c == examineCommand "Bad"), true⟩ 1 10 (.examine "Bad")
      ⟨"INBOX", true, true, "u", "p", false⟩ []).1.folder = "INBOX" ∧
    (run ⟨fun c => !(c == examineCommand "Bad"), true⟩ 1 10 (.examine "Bad")
      ⟨"INBOX", true, true, "u", "p", false⟩ []).1.readOnly = true ∧
    (run ⟨fun _ => true, true⟩ 1 10 (.selectF "Good")
      ⟨"INBOX", true, true, "u", "p", false⟩ []).1.folder = "Good" ∧
    (run ⟨fun _ => true, true⟩ 1 10 (.selectF "Good")
      ⟨"INBOX", true, true, "u", "p", false⟩ []).1.readOnly = false :=
  ⟨((C10_examine_select_folder_state _ 1 10 ⟨"INBOX", true, true, "u", "p", false⟩
      [] "Bad").1 "imap command failed: EXAMINE \"Bad\"" (by rfl)).1,
    ((C10_examine_select_folder_state _ 1 10 ⟨"INBOX", true, true, "u", "p", false⟩
      [] "Bad").1 "imap command failed: EXAMINE \"Bad\"" (by rfl)).2,
    ((C10_examine_select_folder_state _ 1 10 ⟨"INBOX", true, true, "u", "p", false⟩
      [] "Good").2.2.2 (by rfl)).1,
    ((C10_examine_select_folder_state _ 1 10 ⟨"INBOX", true, true, "u", "p", false⟩
      [] "Good").2.2.2 (by rfl)).2⟩

end GoImap
